import Mathlib

/-!
Verification of the ReflexRush image conversion tool (`tools/png_to_mem.py`).

The tool decodes an image, normalizes it to a 64×48 RGB canvas
(nearest-neighbor resize when the size differs), quantizes each pixel to
12-bit RGB444 and writes one zero-padded 3-digit uppercase hex line per
pixel, in row-major order.

The embedding below models:
* `rgb_to_rgb444` — the quantizer, directly from the source;
* `Image` — a decoded raster image: dimensions plus a pixel function;
* `normalize` — the resize branch of `convert_image_to_mem`;
* `fmtHex3` / `writeLine` — Python's `f"{v:03X}"` formatting plus newline;
* `outLines` — the serializer's nested `for y / for x` loop;
* `convert_image_to_mem` — the effectful pipeline over an abstract
  file system and abstract decode/convert/resize operations (the PIL
  collaborator), tracking stdout and the written file;
* `mainRun` — the `__main__` argument handling.
-/

namespace PngToMem

/-- The quantizer from the source: `rgb_to_rgb444(r, g, b)` returns
`(r4 << 8) | (g4 << 4) | b4` where each 4-bit value is the channel
shifted right by 4. -/
def rgb_to_rgb444 (r g b : Nat) : Nat :=
  let r4 := r >>> 4
  let g4 := g >>> 4
  let b4 := b >>> 4
  (r4 <<< 8) ||| (g4 <<< 4) ||| b4

/-- A decoded RGB image: width, height, and a pixel accessor returning an
(R, G, B) triple, mirroring PIL's `img.getpixel((x, y))` on an RGB image. -/
structure Image where
  width : Nat
  height : Nat
  pixel : Nat → Nat → Nat × Nat × Nat

/-- Modelled from the spec: nearest-neighbor resampling by the external
image library (PIL's `img.resize((w, h), Image.NEAREST)` is not part of
this repository). "Nearest-neighbor resampling: an image resizing method
that selects the nearest source pixel for each destination pixel, with no
blending." Each destination coordinate is mapped back to a source
coordinate by the size ratio. -/
def nearestResize (img : Image) (w h : Nat) : Image where
  width := w
  height := h
  pixel := fun x y => img.pixel (x * img.width / w) (y * img.height / h)

/-- The resize branch of `convert_image_to_mem`:
`if img.size != (64, 48): img = img.resize((64, 48), Image.NEAREST)`. -/
def normalize (img : Image) : Image :=
  if (img.width, img.height) ≠ (64, 48) then nearestResize img 64 48 else img

/-- Uppercase hexadecimal digit for a nibble, as Python's `%X` produces:
0–9 map to `'0'`–`'9'` (codepoint 48 + n), 10–15 to `'A'`–`'F'`
(codepoint 55 + n). -/
def hexDigit (n : Nat) : Char :=
  if n < 10 then Char.ofNat (48 + n) else Char.ofNat (55 + n)

/-- Uppercase hexadecimal digit string of `n` (fuel-indexed structural
recursion; `hexChars (n+1) n` always has enough fuel). Mirrors positional
base-16 notation with no leading zeros, as Python's `%X`. -/
def hexChars : Nat → Nat → List Char
  | 0, _ => []
  | fuel + 1, n =>
    if n < 16 then [hexDigit n]
    else hexChars fuel (n / 16) ++ [hexDigit (n % 16)]

/-- Python's `f"{n:03X}"`: uppercase hexadecimal, zero-padded on the left
to a minimum width of 3 (wider values are not truncated). -/
def fmtHex3 (n : Nat) : String :=
  let ds := hexChars (n + 1) n
  String.mk (List.replicate (3 - ds.length) '0' ++ ds)

/-- One written record: `f.write(f"{rgb444:03X}\n")`. -/
def writeLine (n : Nat) : String :=
  fmtHex3 n ++ "\n"

/-- The serializer's nested loop over a (already normalized) canvas:
`for y in range(48): for x in range(64): ...` — one written line per
iteration, in iteration order. -/
def outLines (img : Image) : List String :=
  (List.range 48).flatMap (fun y =>
    (List.range 64).map (fun x =>
      writeLine (rgb_to_rgb444 (img.pixel x y).1 (img.pixel x y).2.1
        (img.pixel x y).2.2)))

/-- The lines of the output file produced for a decoded image: the image
is normalized to 64×48 first, then serialized. -/
def fileLines (img : Image) : List String :=
  outLines (normalize img)

/-- 4-bit packing: for nibbles below 16, the bitwise OR of the shifted
fields is plain positional arithmetic, and the packed value fits in
12 bits. -/
lemma pack16 : ∀ a < 16, ∀ b < 16, ∀ c < 16,
    (a <<< 8) ||| (b <<< 4) ||| c = a * 256 + b * 16 + c ∧
      (a <<< 8) ||| (b <<< 4) ||| c ≤ 4095 := by decide

lemma shiftRight4_lt (x : Nat) (hx : x ≤ 255) : x >>> 4 < 16 := by
  have h : x >>> 4 = x / 2 ^ 4 := Nat.shiftRight_eq_div_pow x 4
  omega

/-- C1: for in-range channels the quantizer packs the three truncated
nibbles positionally and its result is at most 4095. -/
theorem rgb_to_rgb444_spec (r g b : Nat)
    (hr : r ≤ 255) (hg : g ≤ 255) (hb : b ≤ 255) :
    rgb_to_rgb444 r g b = ((r >>> 4) <<< 8) ||| ((g >>> 4) <<< 4) ||| (b >>> 4) ∧
    rgb_to_rgb444 r g b = (r >>> 4) * 256 + (g >>> 4) * 16 + (b >>> 4) ∧
    rgb_to_rgb444 r g b ≤ 4095 := by
  have h := pack16 (r >>> 4) (shiftRight4_lt r hr) (g >>> 4) (shiftRight4_lt g hg)
    (b >>> 4) (shiftRight4_lt b hb)
  exact ⟨rfl, h.1, h.2⟩

/-- C1 witness: the quantizer evaluated at the concrete channel triple
(255, 16, 7). -/
theorem rgb_to_rgb444_spec_witness :
    rgb_to_rgb444 255 16 7 = (255 >>> 4) * 256 + (16 >>> 4) * 16 + (7 >>> 4) ∧
    rgb_to_rgb444 255 16 7 ≤ 4095 := by
  have h := rgb_to_rgb444_spec 255 16 7 (by decide) (by decide) (by decide)
  exact ⟨h.2.1, h.2.2⟩

/-- Flattening a `k`-wide inner loop over an `m`-long outer loop
enumerates `f (n % k) (n / k)` for `n` ranging over `m * k`. -/
lemma flatMap_range_eq {α : Type} (f : Nat → Nat → α) (k : Nat) (hk : 0 < k) :
    ∀ m, (List.range m).flatMap (fun y => (List.range k).map (fun x => f x y)) =
      (List.range (m * k)).map (fun n => f (n % k) (n / k)) := by
  intro m
  induction m with
  | zero => simp
  | succ m ih =>
    rw [List.range_succ, List.flatMap_append, ih, Nat.succ_mul, List.range_add,
      List.map_append, List.map_map]
    congr 1
    · simp only [List.flatMap_cons, List.flatMap_nil, List.append_nil]
      refine List.map_congr_left ?_
      intro j hj
      have hjk : j < k := List.mem_range.mp hj
      have hmod : (m * k + j) % k = j := by
        rw [Nat.add_comm, Nat.mul_comm, Nat.add_mul_mod_self_left, Nat.mod_eq_of_lt hjk]
      have hdiv : (m * k + j) / k = m := by
        rw [Nat.add_comm, Nat.mul_comm, Nat.add_mul_div_left _ _ hk,
          Nat.div_eq_of_lt hjk, Nat.zero_add]
      simp [Function.comp, hmod, hdiv]

/-- The serializer enumerates exactly the 3072 pixels in row-major order. -/
lemma outLines_eq (img : Image) :
    outLines img = (List.range 3072).map (fun n =>
      writeLine (rgb_to_rgb444 (img.pixel (n % 64) (n / 64)).1
        (img.pixel (n % 64) (n / 64)).2.1 (img.pixel (n % 64) (n / 64)).2.2)) := by
  have h := flatMap_range_eq (fun x y =>
    writeLine (rgb_to_rgb444 (img.pixel x y).1 (img.pixel x y).2.1
      (img.pixel x y).2.2)) 64 (by decide) 48
  simpa [outLines] using h

lemma outLines_length (img : Image) : (outLines img).length = 3072 := by
  rw [outLines_eq]
  simp

/-- C2: for any decoded input image, whatever its source dimensions, the
output file has exactly 3072 lines. -/
theorem fileLines_length (img : Image) : (fileLines img).length = 3072 :=
  outLines_length (normalize img)

/-- C3: on a normalized 64×48 canvas, output line `n` (0-indexed) is the
record of the pixel at column `n % 64`, row `n / 64`: rows top-to-bottom,
columns left-to-right within each row. -/
theorem outLines_index (img : Image) (n : Nat) (hn : n < 3072) :
    (outLines img)[n]? = some (writeLine (rgb_to_rgb444
      (img.pixel (n % 64) (n / 64)).1
      (img.pixel (n % 64) (n / 64)).2.1
      (img.pixel (n % 64) (n / 64)).2.2)) := by
  rw [outLines_eq, List.getElem?_map, List.getElem?_range hn, Option.map_some']

/-- A concrete 64×48 canvas, solid red. -/
def redImg : Image where
  width := 64
  height := 48
  pixel := fun _ _ => (255, 0, 0)

/-- C3 witness: line 65 of the solid red canvas is the record of pixel
(column 1, row 1). -/
theorem outLines_index_witness :
    (outLines redImg)[65]? = some (writeLine (rgb_to_rgb444
      (redImg.pixel (65 % 64) (65 / 64)).1
      (redImg.pixel (65 % 64) (65 / 64)).2.1
      (redImg.pixel (65 % 64) (65 / 64)).2.2)) :=
  outLines_index redImg 65 (by decide)

/-- An uppercase hexadecimal digit character: `'0'`–`'9'` (codepoints
48–57) or `'A'`–`'F'` (codepoints 65–70). -/
def isHexDigitU (c : Char) : Bool :=
  (48 ≤ c.toNat && c.toNat ≤ 57) || (65 ≤ c.toNat && c.toNat ≤ 70)

/-- A well-formed output record: exactly 3 uppercase hexadecimal digits
followed by a newline. -/
def isRecord (s : String) : Bool :=
  match s.data with
  | [a, b, c, d] => isHexDigitU a && isHexDigitU b && isHexDigitU c && (d == '\n')
  | _ => false

set_option maxRecDepth 2000 in
lemma isRecord_writeLine_aux :
    ∀ a < 256, ∀ b < 16, isRecord (writeLine (16 * a + b)) = true := by decide

/-- Every value below 4096 is written as a well-formed record. -/
lemma isRecord_writeLine (v : Nat) (h : v < 4096) : isRecord (writeLine v) = true := by
  have h1 : v / 16 < 256 := by omega
  have h2 : v % 16 < 16 := Nat.mod_lt _ (by decide)
  have h3 := isRecord_writeLine_aux (v / 16) h1 (v % 16) h2
  rwa [Nat.div_add_mod] at h3

/-- All channels of a pixel triple are 8-bit values. -/
def pixOk (p : Nat × Nat × Nat) : Prop :=
  p.1 ≤ 255 ∧ p.2.1 ≤ 255 ∧ p.2.2 ≤ 255

/-- C4: when every pixel of the canvas holds 8-bit channels, every written
line is exactly 3 uppercase hexadecimal digits, zero-padded, followed by a
newline. -/
theorem outLines_isRecord (img : Image) (hpix : ∀ x y, pixOk (img.pixel x y)) :
    ∀ s ∈ outLines img, isRecord s = true := by
  intro s hs
  rw [outLines_eq] at hs
  obtain ⟨n, _, rfl⟩ := List.mem_map.mp hs
  obtain ⟨h1, h2, h3⟩ := hpix (n % 64) (n / 64)
  exact isRecord_writeLine _
    (Nat.lt_succ_of_le (rgb_to_rgb444_spec _ _ _ h1 h2 h3).2.2)

lemma redImg_pixOk : ∀ x y, pixOk (redImg.pixel x y) := by
  intro x y
  simp [pixOk, redImg]

/-- C4 witness: the first line written for the solid red canvas is the
well-formed record `"F00\n"`. -/
theorem outLines_isRecord_witness : isRecord (String.mk ['F', '0', '0', '\n']) = true :=
  outLines_isRecord redImg redImg_pixOk (String.mk ['F', '0', '0', '\n']) (by decide)

/-- C5: an image whose dimensions are already exactly 64×48 is left
untouched by normalization, and any other image is replaced by its
nearest-neighbor resample, which has dimensions 64×48. -/
theorem normalize_spec (img : Image) :
    ((img.width, img.height) = (64, 48) → normalize img = img) ∧
    ((img.width, img.height) ≠ (64, 48) →
      normalize img = nearestResize img 64 48 ∧
      (normalize img).width = 64 ∧ (normalize img).height = 48) := by
  constructor
  · intro h
    simp [normalize, h]
  · intro h
    simp [normalize, h, nearestResize]

/-- A concrete 2×2 image (not 64×48). -/
def tinyImg : Image where
  width := 2
  height := 2
  pixel := fun _ _ => (16, 32, 48)

/-- C5 witness: the 2×2 image is resampled, and the solid red 64×48
canvas is not. -/
theorem normalize_spec_witness :
    normalize tinyImg = nearestResize tinyImg 64 48 ∧ normalize redImg = redImg :=
  ⟨((normalize_spec tinyImg).2 (by decide)).1, (normalize_spec redImg).1 (by decide)⟩

/-- C10: the quantizer validates nothing: at the out-of-range input
(256, 0, 0) the packed value is 4096, beyond the 12-bit range, and the
written line has 4 hexadecimal digits instead of 3 (5 characters with the
newline), so it is not a well-formed record. -/
theorem rgb_to_rgb444_no_validation :
    rgb_to_rgb444 256 0 0 = 4096 ∧
    ¬ rgb_to_rgb444 256 0 0 ≤ 4095 ∧
    (writeLine (rgb_to_rgb444 256 0 0)).length = 5 ∧
    isRecord (writeLine (rgb_to_rgb444 256 0 0)) = false := by decide

/-- C8 counterexample: the output for the solid red canvas has 3072 lines,
not 4096 as the data-model sentence states. -/
theorem fileLines_not_4096 : (fileLines redImg).length ≠ 4096 := by
  rw [fileLines_length]
  decide

/-- C8 amended: the output file is an ordered sequence of exactly
3072 = 64×48 lines, line `n` holding the record of the quantized pixel at
column `n % 64`, row `n / 64` of the normalized canvas. -/
theorem fileLines_amended (img : Image) :
    (fileLines img).length = 3072 ∧
    ∀ n, n < 3072 → (fileLines img)[n]? = some (writeLine (rgb_to_rgb444
      ((normalize img).pixel (n % 64) (n / 64)).1
      ((normalize img).pixel (n % 64) (n / 64)).2.1
      ((normalize img).pixel (n % 64) (n / 64)).2.2)) :=
  ⟨fileLines_length img, fun n hn => outLines_index (normalize img) n hn⟩

/-- C8 amended witness: line 0 of the solid red canvas output. -/
theorem fileLines_amended_witness :
    (fileLines redImg)[0]? = some (writeLine (rgb_to_rgb444
      ((normalize redImg).pixel (0 % 64) (0 / 64)).1
      ((normalize redImg).pixel (0 % 64) (0 / 64)).2.1
      ((normalize redImg).pixel (0 % 64) (0 / 64)).2.2)) :=
  (fileLines_amended redImg).2 0 (by decide)

/-- The file system visible to the tool: a map from paths to file
contents (text). -/
def FS : Type := String → Option String

/-- The narrow capability set the tool needs from the external image
library (PIL): open/decode by path, conversion to 3-channel RGB, and
nearest-neighbor resize to 64×48. Each stage may raise (an `Except`
error models a Python exception). -/
structure ImgOps where
  openImg : String → Except String Image
  convertRGB : Image → Except String Image
  resizeNearest : Image → Except String Image

def resizeMsg (input : String) : String :=
  "Resizing " ++ input ++ " to 64x48"

def doneMsg (input output : String) : String :=
  "✅ Converted " ++ input ++ " → " ++ output

/-- Writing the output file: `open(output_file, 'w')` truncates and the
loop writes all 3072 records, so on success the path holds exactly the
concatenated records of the canvas. -/
def writeOut (output : String) (img : Image) (fs : FS) : FS :=
  fun p => if p = output then some (String.join (outLines img)) else fs p

/-- `convert_image_to_mem(input_file, output_file)`: decode, convert to
RGB, resize when the size is not (64, 48), then write one record per
pixel. Returns the resulting file system, the stdout messages in order,
and `.ok` on success or the propagated exception. -/
def convert_image_to_mem (ops : ImgOps) (input output : String) (fs : FS) :
    FS × List String × Except String Unit :=
  match ops.openImg input with
  | .error e => (fs, [], .error e)
  | .ok img0 =>
    match ops.convertRGB img0 with
    | .error e => (fs, [], .error e)
    | .ok img1 =>
      if (img1.width, img1.height) ≠ (64, 48) then
        match ops.resizeNearest img1 with
        | .error e => (fs, [resizeMsg input], .error e)
        | .ok img2 =>
          (writeOut output img2 fs, [resizeMsg input, doneMsg input output], .ok ())
      else
        (writeOut output img1 fs, [doneMsg input output], .ok ())

def usageMsg : String := "Usage: python png_to_mem.py input.png output.mem"

/-- The `__main__` block: with `sys.argv` not of the form
`[prog, input, output]`, print the usage line and exit with status 1;
otherwise run the conversion (exit status 1 when it raises, since an
uncaught Python exception terminates the process with status 1).
Returns the file system, stdout, and the exit status. -/
def mainRun (ops : ImgOps) (argv : List String) (fs : FS) :
    FS × List String × Nat :=
  match argv with
  | [_, input, output] =>
    let r := convert_image_to_mem ops input output fs
    (r.1, r.2.1, match r.2.2 with | .ok _ => 0 | .error _ => 1)
  | _ => (fs, [usageMsg], 1)

/-- C6: with an argument count other than two paths after the program
name, the program prints the usage line to stdout, exits with status 1,
and leaves the file system untouched (no conversion, no output file). -/
theorem mainRun_usage (ops : ImgOps) (argv : List String) (fs : FS)
    (h : argv.length ≠ 3) :
    mainRun ops argv fs = (fs, [usageMsg], 1) := by
  match argv with
  | [] => rfl
  | [_] => rfl
  | [_, _] => rfl
  | [_, _, _] => exact absurd rfl h
  | _ :: _ :: _ :: _ :: _ => rfl

/-- An operation set whose decode always fails. -/
def failOps : ImgOps where
  openImg := fun _ => .error "cannot identify image file"
  convertRGB := fun img => .ok img
  resizeNearest := fun img => .ok (nearestResize img 64 48)

/-- The empty file system. -/
def emptyFS : FS := fun _ => none

/-- C6 witness: one path given, concrete operations and file system. -/
theorem mainRun_usage_witness :
    mainRun failOps ["png_to_mem.py", "input.png"] emptyFS =
      (emptyFS, [usageMsg], 1) :=
  mainRun_usage failOps ["png_to_mem.py", "input.png"] emptyFS (by decide)

/-- C9: when any stage before writing (decode, RGB conversion, resize)
raises, the conversion leaves the file system exactly as it was: the
output path is opened for writing only after those stages succeed. -/
theorem convert_image_to_mem_no_partial_output (ops : ImgOps)
    (input output : String) (fs : FS) (e : String)
    (h : (convert_image_to_mem ops input output fs).2.2 = .error e) :
    (convert_image_to_mem ops input output fs).1 = fs := by
  unfold convert_image_to_mem at h ⊢
  cases hopen : ops.openImg input with
  | error e1 => simp [hopen]
  | ok img0 =>
    cases hconv : ops.convertRGB img0 with
    | error e1 => simp [hopen, hconv]
    | ok img1 =>
      by_cases hsz : (img1.width, img1.height) ≠ (64, 48)
      · cases hres : ops.resizeNearest img1 with
        | error e1 => simp [hopen, hconv, hsz, hres]
        | ok img2 => simp [hopen, hconv, hsz, hres] at h
      · simp [hopen, hconv, hsz] at h

/-- C9 witness: failing decode on the empty file system changes nothing. -/
theorem convert_image_to_mem_no_partial_output_witness :
    (convert_image_to_mem failOps "input.png" "out.mem" emptyFS).1 = emptyFS :=
  convert_image_to_mem_no_partial_output failOps "input.png" "out.mem" emptyFS
    "cannot identify image file" rfl

/-- C7: the conversion is deterministic: a second run on the same input,
over the file system the first run produced, succeeds again and leaves
the output file byte-identical. -/
theorem convert_image_to_mem_deterministic (ops : ImgOps)
    (input output : String) (fs : FS)
    (h : (convert_image_to_mem ops input output fs).2.2 = .ok ()) :
    (convert_image_to_mem ops input output
        ((convert_image_to_mem ops input output fs).1)).2.2 = .ok () ∧
    (convert_image_to_mem ops input output
        ((convert_image_to_mem ops input output fs).1)).1 output =
      (convert_image_to_mem ops input output fs).1 output := by
  unfold convert_image_to_mem at h ⊢
  cases hopen : ops.openImg input with
  | error e1 => simp [hopen] at h
  | ok img0 =>
    cases hconv : ops.convertRGB img0 with
    | error e1 => simp [hopen, hconv] at h
    | ok img1 =>
      by_cases hsz : (img1.width, img1.height) ≠ (64, 48)
      · cases hres : ops.resizeNearest img1 with
        | error e1 => simp [hopen, hconv, hsz, hres] at h
        | ok img2 => simp [hopen, hconv, hsz, hres, writeOut]
      · simp [hopen, hconv, hsz, writeOut]

/-- An operation set that decodes every path to the solid red canvas. -/
def redOps : ImgOps where
  openImg := fun _ => .ok redImg
  convertRGB := fun img => .ok img
  resizeNearest := fun img => .ok (nearestResize img 64 48)

/-- C7 witness: two runs with concrete operations agree on the output
path. -/
theorem convert_image_to_mem_deterministic_witness :
    (convert_image_to_mem redOps "input.png" "out.mem"
        ((convert_image_to_mem redOps "input.png" "out.mem" emptyFS).1)).1 "out.mem" =
      (convert_image_to_mem redOps "input.png" "out.mem" emptyFS).1 "out.mem" :=
  (convert_image_to_mem_deterministic redOps "input.png" "out.mem" emptyFS rfl).2

end PngToMem
